import Mathlib

/-!
Verification of the LWC template-compiler specification against the
repository slice: golden fixture programs emitted by the template compiler,
the compiled stylesheet function, and the patched custom-element registry
(`global-registry.ts`). Generated render programs are shallowly embedded:
module-level mutable fragment caches become explicit state threading, vnodes
become an inductive type, and runtime helpers absent from the sources are
modelled from the specification where noted.
-/

set_option autoImplicit false
set_option linter.unusedVariables false

namespace LWC

/-- A runtime key value as it appears in generated element data: a literal
integer (`key: 2`), a literal string (`key: "@test:3"`), or the result of an
`api_key(templateKey, iterationIdentity)` call. -/
structure IterKey where
  templateKey : Nat
  iterationIdentity : String
deriving DecidableEq, Repr

inductive KeyVal where
  | num (n : Nat)
  | str (s : String)
  | iter (k : IterKey)
deriving DecidableEq, Repr

/-- Element data object as emitted by the compiler (`stc` constants and inline
objects): attributes (a JS `null` value is `none`), class map, ordered style
declaration triples, the key and the static marker. -/
structure ElementData where
  attrs : List (String × Option String) := []
  classMap : List (String × Bool) := []
  styleDecls : List (String × String × Bool) := []
  key : KeyVal
  isStatic : Bool := false
deriving DecidableEq, Repr

/-- Virtual nodes produced by the runtime API calls appearing in the generated
programs: `api_element`, `api_text`, `api_comment`, `api_static_fragment`
(carrying the identity of the fragment instance it was given), and the node
produced by `api_slot`. -/
inductive VNode where
  | element (tag : String) (data : ElementData) (children : List VNode)
  | text (s : String)
  | comment (s : String)
  | staticFragment (inst : Nat) (key : KeyVal)
  | slotVNode (name : String) (data : ElementData) (children : List VNode)
deriving Repr

/-- First-key association-list lookup, used for all the registry maps and the
slotset. -/
def alookup {α β : Type} [DecidableEq α] : List (α × β) → α → Option β
  | [], _ => none
  | (a, b) :: rest, k => if a = k then some b else alookup rest k

/-- Update every entry of an association list at a key, leaving other entries
alone. -/
def aupdate {α β : Type} [DecidableEq α] : List (α × β) → α → (β → β) → List (α × β)
  | [], _, _ => []
  | (a, b) :: rest, k, f => (if a = k then (a, f b) else (a, b)) :: aupdate rest k f

theorem alookup_cons_self {α β : Type} [DecidableEq α] (a : α) (b : β)
    (l : List (α × β)) : alookup ((a, b) :: l) a = some b := by
  simp [alookup]

theorem alookup_cons_ne {α β : Type} [DecidableEq α] (a : α) (b : β)
    (l : List (α × β)) (k : α) (h : a ≠ k) :
    alookup ((a, b) :: l) k = alookup l k := by
  simp [alookup, h]

theorem alookup_aupdate_self {α β : Type} [DecidableEq α] (l : List (α × β))
    (k : α) (f : β → β) : alookup (aupdate l k f) k = (alookup l k).map f := by
  induction l with
  | nil => rfl
  | cons p rest ih =>
    obtain ⟨a, b⟩ := p
    by_cases h : a = k
    · subst h
      show alookup ((if a = a then (a, f b) else (a, b)) :: aupdate rest a f) a = _
      rw [if_pos rfl]
      simp [alookup]
    · show alookup ((if a = k then (a, f b) else (a, b)) :: aupdate rest k f) k = _
      rw [if_neg h]
      simp [alookup, h, ih]

theorem alookup_aupdate_cons_self {α β : Type} [DecidableEq α] (k : α) (b : β)
    (l : List (α × β)) (f : β → β) :
    alookup (aupdate ((k, b) :: l) k f) k = some (f b) := by
  rw [alookup_aupdate_self, alookup_cons_self]
  rfl

namespace Part001

/-! Embedding of the generated program `src/unnamed/part_001`:

```
let $fragment1;
const $hoisted1 = parseFragment`<p hidden${1}${2}>x</p>`;
function tmpl($api, $cmp, $slotset, $ctx) {
  const { st: api_static_fragment, h: api_element } = $api;
  return [
    api_static_fragment($fragment1 || ($fragment1 = $hoisted1()), 1),
    api_element("input", {
      attrs: {
        readonly: $cmp.getReadOnly ? "" : null,
        disabled: "",
        title: "foo",
      },
      key: 2,
    }),
  ];
}
```

The module-level mutable `$fragment1` cell and the instances allocated by
calling the `$hoisted1` factory are modelled by an explicit heap: `fragment1`
is the cache cell and `nextId` counts factory calls, so each call to the
factory yields a fresh instance identity. -/

/-- The template literal handed to `parseFragment` for `$hoisted1`. -/
def hoisted1Source : String := "<p hidden${1}${2}>x</p>"

structure Heap where
  fragment1 : Option Nat
  nextId : Nat
deriving DecidableEq, Repr

/-- Module state right after loading: `let $fragment1;` leaves the cache
unassigned and no fragment instance has been constructed. -/
def initHeap : Heap := ⟨none, 0⟩

/-- The expression `$fragment1 || ($fragment1 = $hoisted1())`: return the
cached instance when present, otherwise call the factory (allocating a fresh
instance) and store the result in the cache. -/
def forceFragment1 (h : Heap) : Nat × Heap :=
  match h.fragment1 with
  | some f => (f, h)
  | none => (h.nextId, ⟨some h.nextId, h.nextId + 1⟩)

/-- The component view `$cmp` as used by this template: only `getReadOnly` is
read. -/
structure Cmp where
  getReadOnly : Bool
deriving DecidableEq, Repr

/-- The render function `tmpl` of `part_001`, threading the module heap. -/
def tmpl (cmp : Cmp) (h : Heap) : List VNode × Heap :=
  let (f, h') := forceFragment1 h
  ([VNode.staticFragment f (KeyVal.num 1),
    VNode.element "input"
      { attrs := [("readonly", if cmp.getReadOnly then some "" else none),
                  ("disabled", some ""),
                  ("title", some "foo")],
        key := KeyVal.num 2 }
      []], h')

/-- Invoke the render function `n` times in sequence from a heap, collecting
each invocation's output. -/
def runN : Nat → Cmp → Heap → List (List VNode) × Heap
  | 0, _, h => ([], h)
  | n + 1, c, h =>
    let (out, h') := tmpl c h
    let (outs, h'') := runN n c h'
    (out :: outs, h'')

/-- The fragment instance handed to `api_static_fragment` in one invocation's
output. -/
def fragOf (out : List VNode) : Option Nat :=
  match out with
  | VNode.staticFragment f _ :: _ => some f
  | _ => none

theorem tmpl_cached (cmp : Cmp) (h : Heap) (f : Nat) (hf : h.fragment1 = some f) :
    tmpl cmp h = ((VNode.staticFragment f (KeyVal.num 1) ::
      VNode.element "input"
        { attrs := [("readonly", if cmp.getReadOnly then some "" else none),
                    ("disabled", some ""),
                    ("title", some "foo")],
          key := KeyVal.num 2 } [] :: []), h) := by
  simp [tmpl, forceFragment1, hf]

theorem runN_cached (n : Nat) (cmp : Cmp) (h : Heap) (f : Nat)
    (hf : h.fragment1 = some f) :
    runN n cmp h =
      (List.replicate n (VNode.staticFragment f (KeyVal.num 1) ::
        VNode.element "input"
          { attrs := [("readonly", if cmp.getReadOnly then some "" else none),
                      ("disabled", some ""),
                      ("title", some "foo")],
            key := KeyVal.num 2 } [] :: []), h) := by
  induction n with
  | zero => simp [runN]
  | succ n ih =>
    rw [runN, tmpl_cached cmp h f hf]
    simp [ih, List.replicate_succ]

/-- The list of vnodes produced by the very first invocation of `tmpl` after
module load: the hoisted fragment instance allocated on that first access has
identity `0`. -/
def firstOutput (cmp : Cmp) : List VNode :=
  [VNode.staticFragment 0 (KeyVal.num 1),
   VNode.element "input"
     { attrs := [("readonly", if cmp.getReadOnly then some "" else none),
                 ("disabled", some ""),
                 ("title", some "foo")],
       key := KeyVal.num 2 }
     []]

theorem runN_init (n : Nat) (cmp : Cmp) :
    runN n cmp initHeap =
      (List.replicate n (firstOutput cmp),
       if n = 0 then initHeap else ⟨some 0, 1⟩) := by
  cases n with
  | zero => rfl
  | succ m =>
    rw [runN]
    have h1 : tmpl cmp initHeap = (firstOutput cmp, ⟨some 0, 1⟩) := rfl
    rw [h1]
    dsimp only
    rw [runN_cached m cmp ⟨some 0, 1⟩ 0 rfl]
    simp [List.replicate_succ, firstOutput]

end Part001

/-- The value of an attribute in an element vnode's data: `none` when the node
is not an element or lacks the attribute, `some none` when the attribute was
emitted with a JS `null` value, `some (some v)` for string value `v`. -/
def attrOf (v : VNode) (name : String) : Option (Option String) :=
  match v with
  | .element _ d _ => alookup d.attrs name
  | _ => none

/-- C2: across any number `N` of invocations of the generated render function
`tmpl` (from `src/unnamed/part_001`), the hoisted fragment is constructed at
most once — lazily, on first access, via `$fragment1 || ($fragment1 =
$hoisted1())` — so the factory-call count is `0` for `N = 0` and exactly `1`
otherwise; every invocation passes the identical cached instance (identity
`0`, the one allocated on first access) to `api_static_fragment`, and every
invocation's result equals the first invocation's result. -/
theorem static_hoist_memoized (N : Nat) (cmp : Part001.Cmp) :
    (Part001.runN N cmp Part001.initHeap).2.nextId ≤ 1 ∧
    (Part001.runN N cmp Part001.initHeap).2.nextId = (if N = 0 then 0 else 1) ∧
    ∀ out ∈ (Part001.runN N cmp Part001.initHeap).1,
      Part001.fragOf out = some 0 ∧
      (Part001.runN N cmp Part001.initHeap).1.head? = some out := by
  rw [Part001.runN_init N cmp]
  refine ⟨?_, ?_, ?_⟩
  · cases N with
    | zero => simp [Part001.initHeap]
    | succ m => simp
  · cases N with
    | zero => simp [Part001.initHeap]
    | succ m => simp
  · intro out hmem
    have hout : out = Part001.firstOutput cmp := List.eq_of_mem_replicate hmem
    subst hout
    cases N with
    | zero => simp at hmem
    | succ m =>
      constructor
      · rfl
      · simp [List.replicate_succ]

/-- Witness for C2 at `N = 1` and a concrete component state. -/
theorem static_hoist_memoized_witness :
    Part001.fragOf (Part001.firstOutput ⟨true⟩) = some 0 ∧
    (Part001.runN 1 ⟨true⟩ Part001.initHeap).2.nextId = (if 1 = 0 then 0 else 1) := by
  have h := static_hoist_memoized 1 ⟨true⟩
  have hmem : Part001.firstOutput ⟨true⟩ ∈ (Part001.runN 1 ⟨true⟩ Part001.initHeap).1 := by
    show Part001.firstOutput ⟨true⟩ ∈ [Part001.firstOutput ⟨true⟩]
    exact List.mem_singleton_self _
  exact ⟨(h.2.2 _ hmem).1, h.2.1⟩

/-- Modelled from the spec: the runtime slot-projection entry point
(`s`, destructured as `api_slot` in the generated programs) is not part of the
provided sources — the fixtures only call it. Per §4.3 and §8 of the spec, a
slot's default content is rendered only when the caller supplies no content
(a missing entry, or an empty list) for that slot name; non-empty
caller-supplied content replaces the default wholesale, with no merging. -/
def api_slot (name : String) (data : ElementData) (defaultChildren : List VNode)
    (slotset : List (String × List VNode)) : VNode :=
  let children :=
    match alookup slotset name with
    | some content => if content.isEmpty then defaultChildren else content
    | none => defaultChildren
  VNode.slotVNode name data children

namespace SlotTest

/-! Embedding of the generated program for
`<section><slot name="test">Test slot content</slot></section>`
(the named-slot document of `src/unnamed/part_000`):

```
let $fragment1;
const $hoisted1 = parseFragment`<p${1}${2}>Test slot content</p>`;
const stc0 = { key: 0 };
const stc1 = { attrs: { name: "test" }, key: 1 };
function tmpl($api, $cmp, $slotset, $ctx) {
  const { st: api_static_fragment, s: api_slot, h: api_element } = $api;
  return [
    api_element("section", stc0, [
      api_slot("test", stc1,
        [api_static_fragment($fragment1 || ($fragment1 = $hoisted1()), "@test:3")],
        $slotset),
    ]),
  ];
}
tmpl.slots = ["test"];
```
-/

def hoisted1Source : String := "<p${1}${2}>Test slot content</p>"

structure Heap where
  fragment1 : Option Nat
  nextId : Nat
deriving DecidableEq, Repr

def initHeap : Heap := ⟨none, 0⟩

def forceFragment1 (h : Heap) : Nat × Heap :=
  match h.fragment1 with
  | some f => (f, h)
  | none => (h.nextId, ⟨some h.nextId, h.nextId + 1⟩)

def stc0 : ElementData := { key := KeyVal.num 0 }

def stc1 : ElementData := { attrs := [("name", some "test")], key := KeyVal.num 1 }

def tmpl (slotset : List (String × List VNode)) (h : Heap) : List VNode × Heap :=
  let (f, h') := forceFragment1 h
  ([VNode.element "section" stc0
      [api_slot "test" stc1 [VNode.staticFragment f (KeyVal.str "@test:3")] slotset]],
   h')

/-- The template's declared slot names: `tmpl.slots = ["test"]`. -/
def tmplSlots : List String := ["test"]

/-- The children the slot node carries in one invocation's output. -/
def slotChildren (out : List VNode) : Option (List VNode) :=
  match out with
  | [VNode.element _ _ [VNode.slotVNode _ _ cs]] => some cs
  | _ => none

end SlotTest

/-- C5: for the compiled `<slot name="test">` with default content, invoking
the render function with an empty caller-supplied `$slotset` yields exactly
the default-fragment argument of the slot call (the hoisted static fragment),
while invoking it with non-empty content for `"test"` yields exactly the
caller-supplied nodes with no merge of default content; and the declared slot
names are recorded as `tmpl.slots = ["test"]`. -/
theorem slot_default_fallback (h : SlotTest.Heap) (content : List VNode)
    (hne : content ≠ []) :
    SlotTest.slotChildren (SlotTest.tmpl [] h).1 =
      some [VNode.staticFragment (SlotTest.forceFragment1 h).1 (KeyVal.str "@test:3")] ∧
    SlotTest.slotChildren (SlotTest.tmpl [("test", content)] h).1 = some content ∧
    SlotTest.tmplSlots = ["test"] := by
  obtain ⟨c0, cs, rfl⟩ : ∃ c0 cs, content = c0 :: cs := by
    cases content with
    | nil => exact absurd rfl hne
    | cons c0 cs => exact ⟨c0, cs, rfl⟩
  refine ⟨?_, ?_, rfl⟩ <;>
  · cases hf : h.fragment1 <;>
      simp [SlotTest.tmpl, SlotTest.forceFragment1, hf, api_slot, alookup,
            SlotTest.slotChildren]

/-- Witness for C5 with one caller-supplied text node and the initial module
heap. -/
theorem slot_default_fallback_witness :
    SlotTest.slotChildren (SlotTest.tmpl [("test", [VNode.text "x"])] SlotTest.initHeap).1 =
      some [VNode.text "x"] ∧
    SlotTest.slotChildren (SlotTest.tmpl [] SlotTest.initHeap).1 =
      some [VNode.staticFragment (SlotTest.forceFragment1 SlotTest.initHeap).1
        (KeyVal.str "@test:3")] ∧
    SlotTest.tmplSlots = ["test"] := by
  have h := slot_default_fallback SlotTest.initHeap [VNode.text "x"] (by simp)
  exact ⟨h.2.1, h.1, h.2.2⟩

/-- C6: in the program generated for `<input disabled title="foo">` with a
bound `readonly` attribute (`src/unnamed/part_001`), the creation call for the
input element emits `disabled` and `title` as literal values `""` and `"foo"`,
while `readonly` is the conditional `$cmp.getReadOnly ? "" : null`, evaluated
from the component view passed to each invocation of the render function. -/
theorem input_attrs_literal_vs_bound (cmp : Part001.Cmp) (h : Part001.Heap) :
    ((Part001.tmpl cmp h).1[1]?).bind (fun v => attrOf v "disabled") = some (some "") ∧
    ((Part001.tmpl cmp h).1[1]?).bind (fun v => attrOf v "title") = some (some "foo") ∧
    ((Part001.tmpl cmp h).1[1]?).bind (fun v => attrOf v "readonly") =
      some (if cmp.getReadOnly then some "" else none) := by
  cases hf : h.fragment1 with
  | some f =>
    refine ⟨?_, ?_, ?_⟩ <;>
      simp [Part001.tmpl, Part001.forceFragment1, hf, attrOf, alookup]
  | none =>
    refine ⟨?_, ?_, ?_⟩ <;>
      simp [Part001.tmpl, Part001.forceFragment1, hf, attrOf, alookup]

/-- Modelled from the spec: the runtime per-item key combinator (`k`,
destructured as `api_key` in the generated programs, called as
`api_key(4, item.id)`) is not part of the provided sources. Per §3 of the
spec, a key attached inside an iteration is the
`(templateKey, iterationIdentity)` pair: the deterministic combination (§4.4,
§9) of the emitted literal integer encoding the structural position with the
author-supplied per-iteration identity. -/
def api_key (templateKey : Nat) (iterationIdentity : String) : KeyVal :=
  KeyVal.iter ⟨templateKey, iterationIdentity⟩

/-- The key carried by a vnode, when it has one. -/
def keyOfVNode (v : VNode) : Option KeyVal :=
  match v with
  | .element _ d _ => some d.key
  | .slotVNode _ d _ => some d.key
  | .staticFragment _ k => some k
  | _ => none

namespace MultiHoist

/-! Embedding of the second document of
`src/packages/@lwc/template-compiler/src/__tests__/fixtures/base/style-important/expected.js`:
a template with two static `<p>Last child</p>` subtrees in different regions
(hoisted independently as `$hoisted1`/`$fragment1` and `$hoisted2`/`$fragment2`
despite having identical content), a third hoisted section, and iterations
whose per-item keys are `api_key(4, item.id)`, `api_key(5, item.id)` and
`api_key(9, item.id)`. The three mutable `$fragmentN` cells become the heap
fields; `nextId` counts factory calls so each `$hoistedN()` call yields a
fresh instance identity. -/

def hoisted1Source : String := "<p${1}${2}>Last child</p>"

def hoisted2Source : String := "<p${1}${2}>Last child</p>"

def hoisted3Source : String :=
  "<section class=\"s4${0}\"${2}><p${1}${2}>Other child1</p><p${1}${2}>Other child2</p></section>"

structure Heap where
  fragment1 : Option Nat
  fragment2 : Option Nat
  fragment3 : Option Nat
  nextId : Nat
deriving DecidableEq, Repr

def initHeap : Heap := ⟨none, none, none, 0⟩

def forceFragment1 (h : Heap) : Nat × Heap :=
  match h.fragment1 with
  | some f => (f, h)
  | none => (h.nextId, { h with fragment1 := some h.nextId, nextId := h.nextId + 1 })

def forceFragment2 (h : Heap) : Nat × Heap :=
  match h.fragment2 with
  | some f => (f, h)
  | none => (h.nextId, { h with fragment2 := some h.nextId, nextId := h.nextId + 1 })

def forceFragment3 (h : Heap) : Nat × Heap :=
  match h.fragment3 with
  | some f => (f, h)
  | none => (h.nextId, { h with fragment3 := some h.nextId, nextId := h.nextId + 1 })

structure Item where
  id : String
deriving DecidableEq, Repr

structure Cmp where
  items : List Item
  isTrue : Bool

/-- The iteration entry point `api_iterator(collection, factory)`: map the
factory over the collection. -/
def api_iterator {α : Type} (c : List Item) (factory : Item → α) : List α :=
  c.map factory

/-- One entry of the array handed to `api_flatten`: a single vnode, or an
array of vnodes (an iterator's result or a conditional branch). -/
inductive ChildVal where
  | one (v : VNode)
  | many (vs : List VNode)

/-- The combinator `api_flatten` flattens one level of arrays so the child list
stays well-formed for any runtime fan-out. -/
def api_flatten (xs : List ChildVal) : List VNode :=
  xs.flatMap fun x => match x with | .one v => [v] | .many vs => vs

def stc0 : ElementData := { classMap := [("s1", true)], key := KeyVal.num 0 }

def stc1 : ElementData := { classMap := [("s2", true)], key := KeyVal.num 3 }

def stc2 : List VNode := []

def stc3 : ElementData := { classMap := [("s3", true)], key := KeyVal.num 6 }

/-- The two-element row produced per item by the second section's iterator:
`<p key={api_key(4, item.id)}>X1</p><p key={api_key(5, item.id)}>X2</p>`.
The iterator's rows are arrays; their flattening into the children list is
performed here as the engine's child normalization does. -/
def iterationRow (item : Item) : List VNode :=
  [VNode.element "p" { key := api_key 4 item.id } [VNode.text "X1"],
   VNode.element "p" { key := api_key 5 item.id } [VNode.text "X2"]]

def tmpl (cmp : Cmp) (h : Heap) : List VNode × Heap :=
  let (f1, h1) := forceFragment1 h
  let (f2, h2) := forceFragment2 h1
  let (f3, h3) := forceFragment3 h2
  ([VNode.element "section" stc0
      (api_flatten [ChildVal.one (VNode.text "Other Child"),
        ChildVal.many (api_iterator cmp.items fun _ => VNode.text "X"),
        ChildVal.one (VNode.staticFragment f1 (KeyVal.num 2))]),
    VNode.element "section" stc1
      (api_flatten [ChildVal.one (VNode.text "Other Child"),
        ChildVal.many (if cmp.isTrue then (api_iterator cmp.items iterationRow).flatten
          else stc2)]),
    VNode.element "section" stc3
      (api_flatten [ChildVal.one (VNode.staticFragment f2 (KeyVal.num 8)),
        ChildVal.many (api_iterator cmp.items fun item =>
          VNode.element "div" { key := api_key 9 item.id } [])]),
    VNode.staticFragment f3 (KeyVal.num 11)], h3)

end MultiHoist

/-- C3: per-item keys `api_key(position, identity)` are pairwise distinct for
any collection of pairwise-distinct author-supplied identities; keys at
distinct structural positions differ even when the author supplies the same
raw identity at both (in particular the fixture's sibling positions
`api_key(4, item.id)` and `api_key(5, item.id)` never collide); and the
fixture's iteration row indeed carries exactly those two keys. -/
theorem key_uniqueness :
    (∀ (p : Nat) (ids : List String), ids.Pairwise (· ≠ ·) →
      (ids.map (api_key p)).Pairwise (· ≠ ·)) ∧
    (∀ (p₁ p₂ : Nat) (i : String), p₁ ≠ p₂ → api_key p₁ i ≠ api_key p₂ i) ∧
    (∀ item : MultiHoist.Item,
      (MultiHoist.iterationRow item).map keyOfVNode =
        [some (api_key 4 item.id), some (api_key 5 item.id)] ∧
      api_key 4 item.id ≠ api_key 5 item.id) := by
  refine ⟨?_, ?_, ?_⟩
  · intro p ids h
    rw [List.pairwise_map]
    refine h.imp ?_
    intro a b hab heq
    apply hab
    simpa [api_key, KeyVal.iter.injEq, IterKey.mk.injEq] using heq
  · intro p₁ p₂ i hne heq
    apply hne
    simpa [api_key, KeyVal.iter.injEq, IterKey.mk.injEq] using heq
  · intro item
    refine ⟨rfl, ?_⟩
    intro heq
    simp [api_key, KeyVal.iter.injEq, IterKey.mk.injEq] at heq

/-- Witness for C3: two distinct identities at position 4, and the colliding
identity "a" across sibling positions 4 and 5. -/
theorem key_uniqueness_witness :
    ((["a", "b"].map (api_key 4)).Pairwise (· ≠ ·)) ∧
    api_key 4 "a" ≠ api_key 5 "a" := by
  have h := key_uniqueness
  exact ⟨h.1 4 ["a", "b"] (by decide), h.2.1 4 5 "a" (by decide)⟩

/-- Split a character list at every occurrence of a separator character
(JS `String.prototype.split` semantics on single-character separators). -/
def splitOnChar (c : Char) : List Char → List (List Char)
  | [] => [[]]
  | ch :: rest =>
    let r := splitOnChar c rest
    if ch = c then [] :: r
    else
      match r with
      | h :: t => (ch :: h) :: t
      | [] => [[ch]]

/-- Split a character list at the first occurrence of a separator character;
`none` when the separator does not occur. -/
def splitFirst (c : Char) : List Char → Option (List Char × List Char)
  | [] => none
  | ch :: rest =>
    if ch = c then some ([], rest)
    else (splitFirst c rest).map fun p => (ch :: p.1, p.2)

/-- Drop leading and trailing spaces. -/
def trimSpaces (l : List Char) : List Char :=
  ((l.dropWhile (· = ' ')).reverse.dropWhile (· = ' ')).reverse

def importantMarker : List Char := ['!', 'i', 'm', 'p', 'o', 'r', 't', 'a', 'n', 't']

/-- Detach a trailing `!important` marker from a declaration value, returning
the bare value and the important flag. -/
def stripImportant (v : List Char) : List Char × Bool :=
  if importantMarker.isSuffixOf v then
    (trimSpaces (v.take (v.length - importantMarker.length)), true)
  else (v, false)

/-- Modelled from the spec: the style-attribute parsing stage of the template
compiler is absent from the provided sources (only its golden fixture output
is present). Per §4.4 of the spec it turns a `style` attribute into ordered
`(property, value, importantFlag)` triples preserving authored order exactly,
with no reordering and no deduplication: declarations are `;`-separated
`property:value` pairs, and a trailing `!important` sets the flag. -/
def parseStyleAttribute (s : String) : List (String × String × Bool) :=
  (splitOnChar ';' s.toList).filterMap fun decl =>
    match splitFirst ':' decl with
    | some (prop, value) =>
      let (v, imp) := stripImportant (trimSpaces value)
      some (String.mk (trimSpaces prop), String.mk v, imp)
    | none => none

namespace StyleImportant

/-! Embedding of the first document of
`src/packages/@lwc/template-compiler/src/__tests__/fixtures/base/style-important/expected.js`:

```
const $hoisted1 = api_element(
  "div",
  {
    styleDecls: [
      ["background", "blue", true],
      ["color", "red", false],
      ["opacity", "0.5", true],
    ],
    key: 0,
    isStatic: true,
  },
  []
);
```
-/

def hoisted1 : VNode :=
  VNode.element "div"
    { styleDecls := [("background", "blue", true), ("color", "red", false),
                     ("opacity", "0.5", true)],
      key := KeyVal.num 0,
      isStatic := true }
    []

end StyleImportant

/-- The ordered style declaration triples carried by an element vnode. -/
def styleDeclsOf (v : VNode) : Option (List (String × String × Bool)) :=
  match v with
  | .element _ d _ => some d.styleDecls
  | _ => none

/-- C4: for the input attribute
`style="background:blue!important;color:red;opacity:0.5!important"`, the
style declarations are exactly the ordered triples
`[["background","blue",true],["color","red",false],["opacity","0.5",true]]`
— in authored order, with no reordering and no deduplication — both as
produced by the (spec-modelled) style-attribute parser and as recorded in the
golden fixture's hoisted element. -/
theorem style_decls_ordered_triples :
    parseStyleAttribute "background:blue!important;color:red;opacity:0.5!important" =
      [("background", "blue", true), ("color", "red", false), ("opacity", "0.5", true)] ∧
    styleDeclsOf StyleImportant.hoisted1 =
      some [("background", "blue", true), ("color", "red", false),
            ("opacity", "0.5", true)] := by
  exact ⟨by decide, rfl⟩

namespace ScopedStyles

/-! Embedding of the compiled stylesheet function appended to
`src/packages/@lwc/engine-dom/src/patches/global-registry.ts`:

```
function stylesheet(token, useActualHostSelector, useNativeDirPseudoclass) {
  var shadowSelector = token ? ("[" + token + "]") : "";
  var hostSelector = token ? ("[" + token + "-host]") : "";
  return shadowSelector + "::after {}h1" + shadowSelector + "::before {}";
}
```
-/

/-- JS truthiness of the `token` parameter: `undefined` (absent) and the
empty string are falsy; every other string is truthy. -/
def tokenTruthy : Option String → Bool
  | none => false
  | some s => s != ""

/-- Source line `var shadowSelector = token ? ("[" + token + "]") : "";`. -/
def shadowSelector (token : Option String) : String :=
  if tokenTruthy token then "[" ++ token.getD "" ++ "]" else ""

/-- Source line `var hostSelector = token ? ("[" + token + "-host]") : "";`. -/
def hostSelector (token : Option String) : String :=
  if tokenTruthy token then "[" ++ token.getD "" ++ "-host]" else ""

/-- The stylesheet function's return value. -/
def stylesheet (token : Option String) (useActualHostSelector : Bool)
    (useNativeDirPseudoclass : Bool) : String :=
  shadowSelector token ++ "::after \x7b\x7dh1" ++ shadowSelector token ++
    "::before \x7b\x7d"

end ScopedStyles

/-- C8: for every non-empty scoping token `t` the compiled stylesheet function
scopes selectors by appending the attribute selector `[t]` and host-scopes by
appending `[t-host]` (the distinct `-host` suffixed token); when the token is
absent or empty both suffixes are the empty string, so the emitted selectors
are unscoped. -/
theorem scoped_selector_suffixes (t : String) (ht : t ≠ "") :
    ScopedStyles.shadowSelector (some t) = "[" ++ t ++ "]" ∧
    ScopedStyles.hostSelector (some t) = "[" ++ t ++ "-host]" ∧
    ScopedStyles.shadowSelector none = "" ∧
    ScopedStyles.hostSelector none = "" ∧
    ScopedStyles.shadowSelector (some "") = "" ∧
    ScopedStyles.hostSelector (some "") = "" ∧
    (∀ u v : Bool, ScopedStyles.stylesheet none u v =
      "::after \x7b\x7dh1::before \x7b\x7d") ∧
    (∀ u v : Bool, ScopedStyles.stylesheet (some t) u v =
      "[" ++ t ++ "]" ++ "::after \x7b\x7dh1" ++ ("[" ++ t ++ "]") ++
        "::before \x7b\x7d") := by
  refine ⟨?_, ?_, rfl, rfl, rfl, rfl, fun u v => rfl, fun u v => ?_⟩ <;>
    simp [ScopedStyles.shadowSelector, ScopedStyles.hostSelector,
          ScopedStyles.stylesheet, ScopedStyles.tokenTruthy, ht]

/-- Witness for C8 at the concrete token `x-foo_tmpl`. -/
theorem scoped_selector_suffixes_witness :
    ScopedStyles.shadowSelector (some "x-foo_tmpl") = "[x-foo_tmpl]" ∧
    ScopedStyles.hostSelector (some "x-foo_tmpl") = "[x-foo_tmpl-host]" ∧
    ScopedStyles.shadowSelector none = "" ∧
    ScopedStyles.hostSelector none = "" := by
  have h := scoped_selector_suffixes "x-foo_tmpl" (by decide)
  exact ⟨h.1, h.2.1, h.2.2.1, h.2.2.2.1⟩

namespace Compile

/-! Modelled from the spec: the compiler entry points
(`parse`/`validate`/`analyze`/`generate`, §4) are absent from the provided
sources — only golden fixtures of their output are present. Per §5 the
compiler is a pure, synchronous transformation of a template source plus
options, and per §4.4/§6 the compiler version is recorded only in the
version-stamp comment (the `/*LWC compiler vX.X.X*/` field of every
fixture). -/

structure Options where
  scopedStyles : Bool
deriving DecidableEq, Repr

/-- A generated program: the emitted statements plus the machine-diffable,
human-ignorable version-stamp field (§4.4). -/
structure GeneratedProgram where
  body : List String
  versionStamp : String
deriving DecidableEq, Repr

def versionComment (version : String) : String :=
  "/*LWC compiler v" ++ version ++ "*/"

/-- The emitted statements are a deterministic function of source and options
alone — the compiler version is not an input here. The exact emission scheme
is compiler-internal (§9); what the determinism claim constrains is this data
flow. -/
def emitBody (source : String) (opts : Options) : List String :=
  (if opts.scopedStyles then ["/* scoped template */"] else []) ++
  ["function tmpl($api, $cmp, $slotset, $ctx)", source]

def compile (source : String) (opts : Options) (version : String) :
    GeneratedProgram :=
  { body := emitBody source opts, versionStamp := versionComment version }

/-- Erase the version-stamp field ("modulo the version-stamp field"). -/
def stripVersionStamp (p : GeneratedProgram) : GeneratedProgram :=
  { p with versionStamp := "" }

end Compile

/-- C1: compiling the same source twice with the same options and the same
compiler version yields identical generated programs; across different
compiler versions the outputs agree modulo the version-stamp field, which is
exactly the `/*LWC compiler vX.X.X*/` comment. -/
theorem compile_deterministic (S : String) (opts : Compile.Options)
    (v v' : String) :
    Compile.compile S opts v = Compile.compile S opts v ∧
    Compile.stripVersionStamp (Compile.compile S opts v) =
      Compile.stripVersionStamp (Compile.compile S opts v') ∧
    (Compile.compile S opts v).versionStamp = Compile.versionComment v :=
  ⟨rfl, rfl, rfl⟩

/-- C7: the two static `<p>Last child</p>` subtrees appearing at different
structural positions of the same template get two independent hoisted
declarations: their hoisted sources are identical, yet after a render the two
fragment caches hold distinct instances — never a single shared one. -/
theorem independent_hoisted_fragments (cmp : MultiHoist.Cmp) :
    MultiHoist.hoisted1Source = MultiHoist.hoisted2Source ∧
    ∃ a b, (MultiHoist.tmpl cmp MultiHoist.initHeap).2.fragment1 = some a ∧
      (MultiHoist.tmpl cmp MultiHoist.initHeap).2.fragment2 = some b ∧
      a ≠ b := by
  refine ⟨rfl, 0, 1, rfl, rfl, by decide⟩

/-- Lowercasing of a tag name, character by character (`tagName.toLowerCase()`). -/
def jsToLowerCase (s : String) : String :=
  String.mk (s.data.map Char.toLower)

namespace Registry

/-! Embedding of the patched custom-element registry of
`src/packages/@lwc/engine-dom/src/patches/global-registry.ts`. JS definition
records are shared mutable objects: they live in the `defRecords` heap
(record id → record) and every map holds record ids, so the later
`definition.PivotCtor = PivotCtor` assignment is visible through every alias.
`definedPromises` maps a tag to the resolved value of its `whenDefined`
promise (`none` while pending); `definedResolvers` exists exactly for the
pending entries, so it needs no separate field. The element-level structures
(`definitionForElement`, `pendingRegistryForElement`, `awaitingUpgrade`) and
the callback invocations track DOM elements and are outside this state
model. -/

/-- A user-supplied custom element constructor as the registry observes it:
an identity, whether it has an object prototype
(`getDefinitionForConstructor` throws a `TypeError` otherwise), and its
static `observedAttributes`. -/
structure Ctor where
  id : Nat
  hasPrototype : Bool := true
  observedAttributes : List String := []
deriving DecidableEq, Repr

/-- A definition record (`createDefinitionRecord`): the user constructor, the
back-pointer to the pivoting class (set at define time), and the
`observedAttributes` snapshot. The four lifecycle-callback fields are
runtime functions invoked on elements and play no role in the registry-state
transitions verified here. -/
structure Definition where
  UserCtor : Ctor
  PivotCtor : Option Nat := none
  observedAttributes : List String := []
deriving DecidableEq, Repr

def createDefinitionRecord (constructor : Ctor) : Definition :=
  { UserCtor := constructor,
    observedAttributes := constructor.observedAttributes }

structure RegistryState where
  defRecords : List (Nat × Definition) := []
  definitionForConstructor : List (Ctor × Nat) := []
  pivotCtorByTag : List (String × Nat) := []
  definitionsByTag : List (String × Nat) := []
  definitionsByClass : List (Ctor × Nat) := []
  definedPromises : List (String × Option Ctor) := []
  nativeRegistry : List (String × Nat) := []
  nextDefId : Nat := 0
  nextPivotId : Nat := 0
deriving DecidableEq, Repr

inductive DefineError where
  | extendsNotSupported
  | notAConstructor
  | duplicateTag
  | duplicateConstructor
deriving DecidableEq, Repr

/-- The extends/duplicate-tag/duplicate-constructor throws are `DOMException`;
a malformed constructor throws `TypeError`. -/
def isDOMException : DefineError → Bool
  | .extendsNotSupported => true
  | .duplicateTag => true
  | .duplicateConstructor => true
  | .notAConstructor => false

/-- The helper `getDefinitionForConstructor`: throw for a non-constructor, else
return the cached definition record or create and cache a fresh one. -/
def getDefinitionForConstructor (constructor : Ctor) (s : RegistryState) :
    Except DefineError (Nat × RegistryState) :=
  if !constructor.hasPrototype then .error .notAConstructor
  else
    match alookup s.definitionForConstructor constructor with
    | some i => .ok (i, s)
    | none =>
      let i := s.nextDefId
      .ok (i,
        { s with
          defRecords := (i, createDefinitionRecord constructor) :: s.defRecords,
          definitionForConstructor :=
            (constructor, i) :: s.definitionForConstructor,
          nextDefId := i + 1 })

/-- The patched `CustomElementRegistry.prototype.define`. A throw is an
`.error` carrying the state at the moment of the throw. The intermediate
`nativeGet.call(this, tagName)` discards its result; the `awaitingUpgrade`
flush upgrades pending DOM elements, which are outside this state model. -/
def define (s : RegistryState) (tagName : String) (constructor : Ctor)
    (optionsExtends : Option String) :
    Except (DefineError × RegistryState) RegistryState :=
  if optionsExtends.isSome then .error (.extendsNotSupported, s)
  else
    let tag := jsToLowerCase tagName
    if (alookup s.definitionsByTag tag).isSome then .error (.duplicateTag, s)
    else
      match getDefinitionForConstructor constructor s with
      | .error e => .error (e, s)
      | .ok (defId, s1) =>
        if (alookup s1.definitionsByClass constructor).isSome then
          .error (.duplicateConstructor, s1)
        else
          let s2 := { s1 with
            definitionsByTag := (tag, defId) :: s1.definitionsByTag,
            definitionsByClass := (constructor, defId) :: s1.definitionsByClass }
          let (pivotId, s3) :=
            match alookup s2.pivotCtorByTag tag with
            | some p => (p, s2)
            | none =>
              (s2.nextPivotId,
               { s2 with
                 pivotCtorByTag := (tag, s2.nextPivotId) :: s2.pivotCtorByTag,
                 nativeRegistry := (tag, s2.nextPivotId) :: s2.nativeRegistry,
                 nextPivotId := s2.nextPivotId + 1 })
          let s4 := { s3 with
            defRecords := aupdate s3.defRecords defId
              (fun d => { d with PivotCtor := some pivotId }) }
          .ok { s4 with
            definedPromises := aupdate s4.definedPromises tag
              (fun v => if v = none then some constructor else v) }

/-- The patched `customElements.get`:
`nativeGet(tagName) && definitionsByTag.get(tagName)?.UserCtor` — `undefined`
when the native registry lacks the tag, otherwise the `UserCtor` of the tag's
definition record. -/
def get (s : RegistryState) (tagName : String) : Option Ctor :=
  if (alookup s.nativeRegistry tagName).isSome then
    (alookup s.definitionsByTag tagName).bind fun i =>
      (alookup s.defRecords i).map (·.UserCtor)
  else none

/-- The patched `customElements.whenDefined`, with the promise abstracted:
the first component is the constructor the returned promise is resolved with
at this state (`none` while unresolved), the second the state after the call
(a pending promise/resolver pair is created when the tag has no definition
yet). The native `whenDefined` promise is taken to be resolved exactly when
the native registry holds the tag. -/
def whenDefinedCall (s : RegistryState) (tagName : String) :
    Option Ctor × RegistryState :=
  if (alookup s.nativeRegistry tagName).isSome then
    match alookup s.definedPromises tagName with
    | some v => (v, s)
    | none =>
      match alookup s.definitionsByTag tagName with
      | some i => ((alookup s.defRecords i).map (·.UserCtor), s)
      | none =>
        (none, { s with definedPromises := (tagName, none) :: s.definedPromises })
  else (none, s)

end Registry

/-- C9: the patched `define` throws a `DOMException` when `options.extends` is
supplied, when the lowercased tag name is already registered, and when the
constructor has already been used with the registry; and whenever it throws
for a duplicate, the registry's tag→definition and constructor→definition
tables (and the pivot, native-registry and promise tables) are unchanged —
and, given the reachable-state fact that a registered constructor is already
in the per-constructor cache, the entire state is unchanged: mutations happen
only after all duplicate checks pass. -/
theorem define_duplicate_checks (s : Registry.RegistryState) (tagName : String)
    (c : Registry.Ctor) (ext : Option String) :
    (ext.isSome →
      Registry.define s tagName c ext =
        .error (.extendsNotSupported, s) ∧
      Registry.isDOMException .extendsNotSupported = true) ∧
    (ext = none →
      (alookup s.definitionsByTag (jsToLowerCase tagName)).isSome →
      Registry.define s tagName c ext = .error (.duplicateTag, s) ∧
      Registry.isDOMException .duplicateTag = true) ∧
    (ext = none →
      alookup s.definitionsByTag (jsToLowerCase tagName) = none →
      c.hasPrototype = true →
      (alookup s.definitionsByClass c).isSome →
      ∃ s', Registry.define s tagName c ext =
          .error (.duplicateConstructor, s') ∧
        s'.definitionsByTag = s.definitionsByTag ∧
        s'.definitionsByClass = s.definitionsByClass ∧
        s'.pivotCtorByTag = s.pivotCtorByTag ∧
        s'.nativeRegistry = s.nativeRegistry ∧
        s'.definedPromises = s.definedPromises ∧
        Registry.isDOMException .duplicateConstructor = true ∧
        ((alookup s.definitionForConstructor c).isSome → s' = s)) := by
  refine ⟨?_, ?_, ?_⟩
  · intro hx
    exact ⟨by simp [Registry.define, hx], rfl⟩
  · rintro rfl hdup
    exact ⟨by simp [Registry.define, hdup], rfl⟩
  · rintro rfl hnone hproto hdup
    cases hcache : alookup s.definitionForConstructor c with
    | some i =>
      refine ⟨s, ?_, rfl, rfl, rfl, rfl, rfl, rfl, fun _ => rfl⟩
      simp [Registry.define, hnone, Registry.getDefinitionForConstructor,
            hproto, hcache, hdup]
    | none =>
      refine ⟨{ s with
          defRecords :=
            (s.nextDefId, Registry.createDefinitionRecord c) :: s.defRecords,
          definitionForConstructor :=
            (c, s.nextDefId) :: s.definitionForConstructor,
          nextDefId := s.nextDefId + 1 },
        ?_, rfl, rfl, rfl, rfl, rfl, rfl, ?_⟩
      · simp [Registry.define, hnone, Registry.getDefinitionForConstructor,
              hproto, hcache, hdup]
      · intro hc
        simp at hc

/-- A populated registry state used to exercise the duplicate checks: the tag
`x-a` and the constructor `regCtorA` are already registered. -/
def regCtorA : Registry.Ctor := { id := 0 }

def regCtorB : Registry.Ctor := { id := 1 }

def dupState : Registry.RegistryState :=
  { defRecords := [(0, { UserCtor := regCtorA, PivotCtor := some 0 })],
    definitionForConstructor := [(regCtorA, 0)],
    pivotCtorByTag := [("x-a", 0)],
    definitionsByTag := [("x-a", 0)],
    definitionsByClass := [(regCtorA, 0)],
    definedPromises := [],
    nativeRegistry := [("x-a", 0)],
    nextDefId := 1,
    nextPivotId := 1 }

/-- Witness for C9: the three throwing calls on `dupState`, each leaving the
state unchanged. -/
theorem define_duplicate_checks_witness :
    Registry.define dupState "x-b" regCtorB (some "button") =
      .error (.extendsNotSupported, dupState) ∧
    Registry.define dupState "X-A" regCtorB none =
      .error (.duplicateTag, dupState) ∧
    Registry.define dupState "x-b" regCtorA none =
      .error (.duplicateConstructor, dupState) := by
  have h1 := (define_duplicate_checks dupState "x-b" regCtorB (some "button")).1 rfl
  have h2 := (define_duplicate_checks dupState "X-A" regCtorB none).2.1 rfl (by decide)
  have h3 := (define_duplicate_checks dupState "x-b" regCtorA none).2.2 rfl
    (by decide) rfl (by decide)
  obtain ⟨s', hdef, -, -, -, -, -, -, heq⟩ := h3
  rw [heq (by decide)] at hdef
  exact ⟨h1.1, h2.1, hdef⟩

/-- C10: after a successful patched `define(tagName, C)`, the patched
`customElements.get(tagName)` returns the user-supplied constructor `C`
itself, and the patched `whenDefined(tagName)` resolves with `C` — never the
internal pivoting class that was registered with the native registry. The
hypotheses are facts of reachable states: custom element tag names are
lowercase, a pivot class exists exactly for natively-defined tags, cached
definition records point at heap records for their own constructor, and a
`whenDefined` promise for a tag without a definition is pending. -/
theorem define_exposes_user_ctor (s : Registry.RegistryState) (tagName : String)
    (c : Registry.Ctor) (s' : Registry.RegistryState)
    (hlower : jsToLowerCase tagName = tagName)
    (hinv : ∀ t, (alookup s.pivotCtorByTag t).isSome →
      (alookup s.nativeRegistry t).isSome)
    (hcache : ∀ c' i, alookup s.definitionForConstructor c' = some i →
      ∃ d, alookup s.defRecords i = some d ∧ d.UserCtor = c')
    (hpend : alookup s.definedPromises tagName = none ∨
      alookup s.definedPromises tagName = some none)
    (hok : Registry.define s tagName c none = .ok s') :
    Registry.get s' tagName = some c ∧
    (Registry.whenDefinedCall s' tagName).1 = some c := by
  cases hTag : alookup s.definitionsByTag tagName with
  | some j => simp [Registry.define, hlower, hTag] at hok
  | none =>
    cases hproto : c.hasPrototype with
    | false =>
      simp [Registry.define, hlower, hTag, Registry.getDefinitionForConstructor,
            hproto] at hok
    | true =>
      cases hcach : alookup s.definitionForConstructor c with
      | some i =>
        cases hclass : alookup s.definitionsByClass c with
        | some j =>
          simp [Registry.define, hlower, hTag,
                Registry.getDefinitionForConstructor, hproto, hcach, hclass] at hok
        | none =>
          obtain ⟨d, hd, hdc⟩ := hcache c i hcach
          cases hpiv : alookup s.pivotCtorByTag tagName with
          | some p =>
            obtain ⟨pn, hpn⟩ :=
              Option.isSome_iff_exists.mp (hinv tagName (by simp [hpiv]))
            simp [Registry.define, hlower, hTag,
                  Registry.getDefinitionForConstructor, hproto, hcach, hclass,
                  hpiv] at hok
            subst hok
            rcases hpend with hpd | hpd <;>
              exact ⟨by simp [Registry.get, hpn, alookup_cons_self,
                  alookup_aupdate_self, hd, hdc],
                by simp [Registry.whenDefinedCall, hpn, alookup_cons_self,
                  alookup_aupdate_self, hpd, hd, hdc]⟩
          | none =>
            simp [Registry.define, hlower, hTag,
                  Registry.getDefinitionForConstructor, hproto, hcach, hclass,
                  hpiv] at hok
            subst hok
            rcases hpend with hpd | hpd <;>
              exact ⟨by simp [Registry.get, alookup_cons_self,
                  alookup_aupdate_self, hd, hdc],
                by simp [Registry.whenDefinedCall, alookup_cons_self,
                  alookup_aupdate_self, hpd, hd, hdc]⟩
      | none =>
        cases hclass : alookup s.definitionsByClass c with
        | some j =>
          simp [Registry.define, hlower, hTag,
                Registry.getDefinitionForConstructor, hproto, hcach, hclass] at hok
        | none =>
          cases hpiv : alookup s.pivotCtorByTag tagName with
          | some p =>
            obtain ⟨pn, hpn⟩ :=
              Option.isSome_iff_exists.mp (hinv tagName (by simp [hpiv]))
            simp [Registry.define, hlower, hTag,
                  Registry.getDefinitionForConstructor, hproto, hcach, hclass,
                  hpiv] at hok
            subst hok
            rcases hpend with hpd | hpd <;>
              exact ⟨by simp [Registry.get, hpn, alookup_cons_self,
                  alookup_aupdate_cons_self, Registry.createDefinitionRecord],
                by simp [Registry.whenDefinedCall, hpn, alookup_cons_self,
                  alookup_aupdate_cons_self, alookup_aupdate_self, hpd,
                  Registry.createDefinitionRecord]⟩
          | none =>
            simp [Registry.define, hlower, hTag,
                  Registry.getDefinitionForConstructor, hproto, hcach, hclass,
                  hpiv] at hok
            subst hok
            rcases hpend with hpd | hpd <;>
              exact ⟨by simp [Registry.get, alookup_cons_self,
                  alookup_aupdate_cons_self, Registry.createDefinitionRecord],
                by simp [Registry.whenDefinedCall, alookup_cons_self,
                  alookup_aupdate_cons_self, alookup_aupdate_self, hpd,
                  Registry.createDefinitionRecord]⟩

/-- A fresh constructor for the C10 witness. -/
def regCtorC : Registry.Ctor := { id := 2 }

/-- The registry state reached by successfully defining `x-foo` with
`regCtorC` from the empty state. -/
def demoDefined : Registry.RegistryState :=
  ((Registry.define {} "x-foo" regCtorC none).toOption).getD {}

/-- Witness for C10: defining `x-foo` from the empty registry state, the
patched `get` and `whenDefined` both yield the user constructor. -/
theorem define_exposes_user_ctor_witness :
    Registry.get demoDefined "x-foo" = some regCtorC ∧
    (Registry.whenDefinedCall demoDefined "x-foo").1 = some regCtorC := by
  refine define_exposes_user_ctor {} "x-foo" regCtorC demoDefined (by decide)
    ?_ ?_ ?_ ?_
  · intro t h
    simp [alookup] at h
  · intro c' i h
    simp [alookup] at h
  · exact Or.inl rfl
  · rfl

end LWC
